import Mathlib

/-!
Verification development for the Prisma-Saude ETL pipeline
(`scripts/agent.py` and `scripts/sql_inserter.py`).

The repository ingests delimited health-service files, normalizes them into a
canonical record schema, deduplicates on the natural key
(Data, ClienteId, Procedimento), computes analytics (90th-percentile outlier
flag, rankings) and persists records to SQL Server through a staged
merge-upsert.  This file embeds the data model and the operations of the two
scripts as executable Lean definitions and proves properties about them.

Conventions of the embedding:
* a raw CSV cell is `RawVal` (`missing` models Python `None` / pandas `NaN`,
  `str s` a string cell);
* dates are coded as `Nat` day numbers; money and quantities are `Rat`
  (the scripts use Python floats / SQL decimals: exact values here);
* the external parsing routines (`pandas.to_datetime`, `pandas.to_numeric`,
  Python `float`, `datetime.strptime`) are parameters of the definitions,
  constrained only where the scripts themselves constrain them;
* fallible operations return `Option` / `Except`.
-/

namespace PrismaSaude

/-- A raw cell value as read from a delimited file: either absent
(Python `None` / pandas `NaN`) or a string. -/
inductive RawVal where
  | missing : RawVal
  | str : String → RawVal
deriving DecidableEq, Repr

/-- Apply a string parser to a raw cell; an absent cell never parses
(`pd.to_datetime(NaN) = NaT`, `pd.to_numeric(NaN) = NaN`). -/
def RawVal.parseWith (p : String → Option α) : RawVal → Option α
  | .missing => none
  | .str s => p s

/-- pandas `.astype(str)` on a cell (`NaN` stringifies to "nan"). -/
def RawVal.pdStr : RawVal → String
  | .missing => "nan"
  | .str s => s

/-- One raw input row with the canonical columns of `COLS_BASE`
(agent.py lines 61-64). -/
structure RawRow where
  data : RawVal
  clienteId : RawVal
  operadora : RawVal
  procedimento : RawVal
  categoria : RawVal
  uf : RawVal
  qtde : RawVal
  precoUnitario : RawVal
  receita : RawVal
deriving DecidableEq, Repr

/-- A canonical cleaned record as produced by `normalize_and_clean`
(agent.py lines 154-198).  `Qtde`/`PrecoUnitario` may still be absent
(`pd.to_numeric(..., errors="coerce")` leaves NaN for unparseable cells and
the clamp `df.loc[df[col] < 0, col] = 0` does not touch NaN); `Receita` is
always numeric after the derivation step. -/
structure CleanRec where
  data : Nat
  clienteId : String
  operadora : String
  procedimento : String
  categoria : String
  uf : String
  qtde : Option Rat
  precoUnitario : Option Rat
  receita : Rat
deriving DecidableEq, Repr

/-- The natural key (Data, ClienteId, Procedimento). -/
def CleanRec.key (r : CleanRec) : Nat × String × String :=
  (r.data, r.clienteId, r.procedimento)

/-- pandas clamp `df.loc[df[col] < 0, col] = 0`: applied to present values
only, NaN is untouched (`NaN < 0` is False). -/
def clampNonNeg (v : Option Rat) : Option Rat :=
  v.map (fun x => if x < 0 then 0 else x)

/-- Is a coerced numeric cell negative (drives the `neg_qtde` / `neg_preco`
counters: `(df[col] < 0).fillna(False)`)? -/
def isNegCell (pnum : String → Option Rat) (v : RawVal) : Bool :=
  match v.parseWith pnum with
  | some x => decide (x < 0)
  | none => false

/-- Cleaning of a single row, agent.py `normalize_and_clean` body:
date coercion (row dropped when it fails), numeric coercion, clamping of
negative Qtde/PrecoUnitario to 0, derivation of absent Receita as
`Qtde.fillna(0) * PrecoUnitario.fillna(0.0)`, trimming of string columns.
`pdate` embeds `pd.to_datetime(·, errors="coerce")` on strings,
`pnum` embeds `pd.to_numeric(·, errors="coerce")` on strings. -/
def cleanRow (pdate : String → Option Nat) (pnum : String → Option Rat)
    (r : RawRow) : Option CleanRec :=
  match r.data.parseWith pdate with
  | none => none
  | some d =>
    let q := clampNonNeg (r.qtde.parseWith pnum)
    let p := clampNonNeg (r.precoUnitario.parseWith pnum)
    let receita :=
      match r.receita.parseWith pnum with
      | some v => v
      | none => q.getD 0 * p.getD 0
    some { data := d
           clienteId := r.clienteId.pdStr.trim
           operadora := r.operadora.pdStr.trim
           procedimento := r.procedimento.pdStr.trim
           categoria := r.categoria.pdStr.trim
           uf := r.uf.pdStr.trim
           qtde := q
           precoUnitario := p
           receita := receita }

/-- The audit counters produced by `normalize_and_clean`. -/
structure CleanMetrics where
  invalid_dates : Nat
  neg_qtde : Nat
  neg_preco : Nat
deriving DecidableEq, Repr

/-- agent.py `normalize_and_clean`: returns the cleaned record stream plus
the metrics dict.  `invalid_dates` counts every row whose `Data` cell is NaT
after coercion (absent or unparseable); the negativity counters are taken on
the rows that survived the date filter, matching the code order (the frame is
restricted by `df.loc[s.notna()]` before the numeric section). -/
def normalize_and_clean (pdate : String → Option Nat)
    (pnum : String → Option Rat) (rows : List RawRow) :
    List CleanRec × CleanMetrics :=
  let survives : RawRow → Bool := fun r => (r.data.parseWith pdate).isSome
  ( rows.filterMap (cleanRow pdate pnum)
  , { invalid_dates := (rows.filter (fun r => !(survives r))).length
      neg_qtde := (rows.filter
        (fun r => survives r && isNegCell pnum r.qtde)).length
      neg_preco := (rows.filter
        (fun r => survives r && isNegCell pnum r.precoUnitario)).length } )

/-- agent.py `remove_duplicates` core:
`df.drop_duplicates(subset=["Data","ClienteId","Procedimento"], keep="last")`.
A row is kept iff no later row carries the same natural key, so the last
occurrence of each key survives in its original position. -/
def drop_duplicates_keep_last : List CleanRec → List CleanRec
  | [] => []
  | r :: rs =>
    if rs.any (fun x => decide (x.key = r.key)) then
      drop_duplicates_keep_last rs
    else
      r :: drop_duplicates_keep_last rs

/-- agent.py `remove_duplicates` (lines 219-222): returns the deduplicated
frame together with `before - len(df2)`. -/
def remove_duplicates (l : List CleanRec) : List CleanRec × Nat :=
  (drop_duplicates_keep_last l, l.length - (drop_duplicates_keep_last l).length)

/-! ### sql_inserter.py row normalization -/

/-- Python `int(...)` truncation toward zero of a rational. -/
def ratTrunc (x : Rat) : Int :=
  if 0 ≤ x then x.floor else -((-x).floor)

/-- sql_inserter.py `to_float` (lines 83-89): absent / "" / "NA" / "NaN"
give `0.0`; otherwise `float(str(v).replace(",", "."))`, `0.0` on failure.
`pf` embeds Python `float` on strings. -/
def to_float (pf : String → Option Rat) : RawVal → Rat
  | .missing => 0
  | .str s =>
    if s = "" ∨ s = "NA" ∨ s = "NaN" then 0
    else (pf (s.replace "," ".")).getD 0

/-- sql_inserter.py `to_int` (lines 91-95):
`int(float(str(v).replace(",", ".")))`, `0` on failure (`str(None)` never
parses as a float). -/
def to_int (pf : String → Option Rat) : RawVal → Int
  | .missing => 0
  | .str s =>
    match pf (s.replace "," ".") with
    | some x => ratTrunc x
    | none => 0

/-- sql_inserter.py `to_date` (lines 97-105): falsy input (absent or empty
string) gives `None`; otherwise the three `strptime` formats are tried,
embedded as `pdate3`. -/
def to_date (pdate3 : String → Option Nat) : RawVal → Option Nat
  | .missing => none
  | .str s => if s = "" then none else pdate3 s

/-- Python `(r.get(k) or default).strip()`: `None` and `""` are falsy. -/
def orDefaultTrim (v : RawVal) (d : String) : String :=
  match v with
  | .missing => d.trim
  | .str s => if s = "" then d.trim else s.trim

/-- A record of the SQL column set `COLS_SQL` / the staging tuple
`(Data, ClienteId, Operadora, Procedimento, Categoria, Qtde, PrecoUnitario,
Receita)`. -/
structure InsRec where
  data : Nat
  clienteId : String
  operadora : String
  procedimento : String
  categoria : String
  qtde : Int
  precoUnitario : Rat
  receita : Rat
deriving DecidableEq, Repr

/-- Natural key of a staged record. -/
def InsRec.key (r : InsRec) : Nat × String × String :=
  (r.data, r.clienteId, r.procedimento)

/-- sql_inserter.py `main` per-row normalization (lines 221-231): rows with
an unparseable date are skipped; Qtde and PrecoUnitario are clamped with
`max(0, ...)`; Receita is taken verbatim through `to_float` when the source
cell is not in `(None, "", "NA")` and derived as `qtde * pu` otherwise. -/
def buildRecord (pdate3 : String → Option Nat) (pf : String → Option Rat)
    (r : RawRow) : Option InsRec :=
  match to_date pdate3 r.data with
  | none => none
  | some d =>
    let qtde : Int := max 0 (to_int pf r.qtde)
    let pu : Rat := max 0 (to_float pf r.precoUnitario)
    let receita : Rat :=
      if r.receita = .missing ∨ r.receita = .str "" ∨ r.receita = .str "NA"
      then (qtde : Rat) * pu
      else to_float pf r.receita
    some { data := d
           clienteId := orDefaultTrim r.clienteId ""
           operadora := orDefaultTrim r.operadora "N/A"
           procedimento := orDefaultTrim r.procedimento "N/A"
           categoria := orDefaultTrim r.categoria "N/A"
           qtde := qtde
           precoUnitario := pu
           receita := receita }

/-! ### Analytics engine -/

/-- pandas `Series.quantile(p)` with the default linear interpolation:
with the values sorted ascending and `h = p*(n-1)`, the result is
`x[floor h] + (h - floor h) * (x[floor h + 1] - x[floor h])`. -/
def quantileLinear (p : Rat) (l : List Rat) : Rat :=
  match l with
  | [] => 0
  | _ :: _ =>
    let s := l.insertionSort (· ≤ ·)
    let h : Rat := p * ((l.length - 1 : Nat) : Rat)
    let j : Nat := (Int.floor h).toNat
    let g : Rat := h - (j : Rat)
    let xj := s.getD j 0
    let xj1 := s.getD (j + 1) xj
    xj + g * (xj1 - xj)

/-- agent.py `compute_percentile_flag` (lines 248-253): the 90th percentile
of the Receita column (0 when the frame is empty) and the boolean column
`AltoValor = (v >= p90)`. -/
def compute_percentile_flag (recs : List CleanRec) :
    List (CleanRec × Bool) × Rat :=
  let v := recs.map (fun r => r.receita)
  let p90 : Rat := if recs.length = 0 then 0 else quantileLinear (9/10) v
  (recs.map (fun r => (r, decide (p90 ≤ r.receita))), p90)

/-- pandas `groupby(key, as_index=False)["Receita"].sum()` with the default
`sort=True`: one row per distinct key, keys ascending, each with the summed
revenue of its group. -/
def groupSumBy (key : CleanRec → String) (l : List CleanRec) :
    List (String × Rat) :=
  (((l.map key).dedup).insertionSort (· ≤ ·)).map
    (fun k => (k, ((l.filter (fun r => decide (key r = k))).map
      (fun r => r.receita)).sum))

/-- Executable model of pandas `sort_values("Receita", ascending=False)`
on the grouped frame.  pandas defaults to `kind="quicksort"`, whose
equal-key order is unspecified (only mergesort/stable are documented as
stable); an executable model must pick one concrete order, and this one
(insertion sort) coincides with the real sort on arrays of at most 16
elements, where numpy introsort runs an insertion sort.  Apart from the
concrete two-element tie scenario — small enough for that coincidence —
theorems rely only on the documented contract `IsSortValuesDesc` (a
permutation sorted by descending revenue), never on this model's tie
order. -/
def sort_values_desc (l : List (String × Rat)) : List (String × Rat) :=
  l.insertionSort (fun a b => b.2 ≤ a.2)

/-- The contract pandas documents for `sort_values("Receita",
ascending=False)` with the default `kind="quicksort"`: the output is a
permutation of the input, ordered by descending revenue.  The relative
order of equal-revenue entries is left unspecified. -/
def IsSortValuesDesc
    (sortImpl : List (String × Rat) → List (String × Rat)) : Prop :=
  ∀ m, List.Perm (sortImpl m) m
    ∧ (sortImpl m).Pairwise (fun a b => b.2 ≤ a.2)

/-- One ranking of agent.py `make_pivots_and_rankings` (lines 263-270)
built from an arbitrary sort kernel obeying the `sort_values` contract:
group by the key column, sum Receita, sort descending, `head(20)`. -/
def rankingTopWith (sortImpl : List (String × Rat) → List (String × Rat))
    (key : CleanRec → String) (l : List CleanRec) : List (String × Rat) :=
  (sortImpl (groupSumBy key l)).take 20

/-- One ranking of agent.py `make_pivots_and_rankings` (lines 263-270):
group by the key column, sum Receita, sort descending, `head(20)`. -/
def rankingTop (key : CleanRec → String) (l : List CleanRec) :
    List (String × Rat) :=
  (sort_values_desc (groupSumBy key l)).take 20

/-- The pair of rankings (top Operadoras, top Procedimentos). -/
def make_rankings (l : List CleanRec) :
    List (String × Rat) × List (String × Rat) :=
  (rankingTop (fun r => r.operadora) l, rankingTop (fun r => r.procedimento) l)

/-! ### Persistence gateway

The durable store `SaudeDev.app.Atendimentos` is a list of rows carrying the
eight canonical columns plus the `LoadDate` timestamp.  Timestamps are `Nat`
instants (`SYSDATETIME()` at merge time); rows inserted by plain `INSERT`
(append/truncate modes list only the eight columns) carry no timestamp. -/

/-- A durable-store row of `app.Atendimentos`. -/
structure StoreRow where
  data : Nat
  clienteId : String
  operadora : String
  procedimento : String
  categoria : String
  qtde : Int
  precoUnitario : Rat
  receita : Rat
  loadDate : Option Nat
deriving DecidableEq, Repr

/-- Natural key of a durable row. -/
def StoreRow.key (t : StoreRow) : Nat × String × String :=
  (t.data, t.clienteId, t.procedimento)

/-- Projection dropping the `LoadDate` column. -/
def StoreRow.strip (t : StoreRow) : InsRec :=
  { data := t.data
    clienteId := t.clienteId
    operadora := t.operadora
    procedimento := t.procedimento
    categoria := t.categoria
    qtde := t.qtde
    precoUnitario := t.precoUnitario
    receita := t.receita }

/-- A staged record as a durable row with a given load timestamp. -/
def InsRec.withLoad (s : InsRec) (now : Option Nat) : StoreRow :=
  { data := s.data
    clienteId := s.clienteId
    operadora := s.operadora
    procedimento := s.procedimento
    categoria := s.categoria
    qtde := s.qtde
    precoUnitario := s.precoUnitario
    receita := s.receita
    loadDate := now }

/-- The `WHEN MATCHED THEN UPDATE` arm of `MERGE_FALLBACK_SQL`
(sql_inserter.py lines 131-138): a target row matched by a staging row gets
the staging row's non-key attributes and a fresh `LoadDate`. -/
def mergeUpdateRow (now : Nat) (batch : List InsRec) (t : StoreRow) :
    StoreRow :=
  match batch.find? (fun s => decide (s.key = t.key)) with
  | some s =>
    { t with operadora := s.operadora
             categoria := s.categoria
             qtde := s.qtde
             precoUnitario := s.precoUnitario
             receita := s.receita
             loadDate := some now }
  | none => t

/-- `MERGE_FALLBACK_SQL` (sql_inserter.py lines 125-142): match staging rows
to target rows on the natural key; matched target rows are updated in place,
staging rows matching no target row are inserted with `LoadDate =
SYSDATETIME()`. -/
def mergeFallbackSql (now : Nat) (store : List StoreRow)
    (batch : List InsRec) : List StoreRow :=
  store.map (mergeUpdateRow now batch) ++
    (batch.filter
      (fun s => store.all (fun t => !(decide (t.key = s.key))))).map
      (fun s => s.withLoad (some now))

/-- Modelled from the spec: the stored routine `app.sp_UpsertAtendimentos`
is referenced but its body is not part of the repository; per the spec it
performs the equivalent match/update/insert on the natural key from the
`#tmp_at` staging area ("If a registered stored upsert routine exists in the
target store, the merge step delegates to it; otherwise an equivalent inline
match/update/insert executes, producing the identical resulting state"). -/
def sp_UpsertAtendimentos (now : Nat) (store : List StoreRow)
    (batch : List InsRec) : List StoreRow :=
  mergeFallbackSql now store batch

/-- sql_inserter.py `persist_merge` (lines 168-186), merge step: after the
staging load, the capability probe `sp_exists(cur, "app",
"sp_UpsertAtendimentos")` selects between `EXEC app.sp_UpsertAtendimentos`
and the inline `MERGE_FALLBACK_SQL`. -/
def persist_merge (spFound : Bool) (now : Nat) (store : List StoreRow)
    (batch : List InsRec) : List StoreRow :=
  if spFound then sp_UpsertAtendimentos now store batch
  else mergeFallbackSql now store batch

/-- An error raised inside the SQL transaction. -/
inductive SqlError where
  | rowFailure : InsRec → SqlError
  | execFailure : String → SqlError
deriving DecidableEq, Repr

/-- agent.py `persist_to_sql_merge`, merge step (line 461): the agent runs
`EXEC app.sp_UpsertAtendimentos;` unconditionally — there is no `sp_exists`
probe in agent.py and no inline `MERGE_FALLBACK_SQL` — so the step applies
the routine's upsert when the routine exists in the target store and raises
(SQL Server: could not find stored procedure) when it does not, instead of
falling back to an inline merge. -/
def agentMergeStep (spFound : Bool) (now : Nat) (store : List StoreRow)
    (batch : List InsRec) : Except SqlError (List StoreRow) :=
  if spFound then .ok (sp_UpsertAtendimentos now store batch)
  else .error (.execFailure
    "Could not find stored procedure app.sp_UpsertAtendimentos")

/-- Row-by-row load of a batch (`cursor.executemany` into `#tmp_at` or into
the target table): the first row on which the driver fails raises; otherwise
all rows are loaded.  `failsAt` models the row-level failure condition of
the underlying store (type mismatch, constraint violation, ...). -/
def stageBatch (failsAt : InsRec → Bool) (batch : List InsRec) :
    Except SqlError (List InsRec) :=
  match batch.find? failsAt with
  | some r => .error (.rowFailure r)
  | none => .ok batch

/-- Equality of transaction outcomes is decidable. -/
instance instDecEqExcept {ε α : Type} [DecidableEq ε] [DecidableEq α] :
    DecidableEq (Except ε α) := fun x y =>
  match x, y with
  | .ok a, .ok b =>
    if h : a = b then isTrue (by rw [h])
    else isFalse (by intro hc; cases hc; exact h rfl)
  | .error a, .error b =>
    if h : a = b then isTrue (by rw [h])
    else isFalse (by intro hc; cases hc; exact h rfl)
  | .ok _, .error _ => isFalse (by intro hc; cases hc)
  | .error _, .ok _ => isFalse (by intro hc; cases hc)

/-- Outcome of one persistence call: the durable store after commit or
rollback, and the value returned to the caller (row count) or the re-raised
exception. -/
structure TxResult where
  store : List StoreRow
  outcome : Except SqlError Nat
deriving DecidableEq, Repr

/-- agent.py `persist_to_sql_merge` (lines 421-470): guard clauses return 0
without touching the store when `pyodbc` is unavailable, when
`sql.enable` is false, or when the prepared batch is empty; otherwise the
staging load plus `EXEC app.sp_UpsertAtendimentos` run in one transaction
(`conn.autocommit = False`): on success the transaction commits and the
staged row count is returned, on any failure `conn.rollback()` restores the
store and the exception is re-raised. -/
def persist_to_sql_merge (pyodbcAvail enable : Bool)
    (failsAt : InsRec → Bool) (mergeFails : Bool) (now : Nat)
    (store : List StoreRow) (batch : List InsRec) : TxResult :=
  if !pyodbcAvail then { store := store, outcome := .ok 0 }
  else if !enable then { store := store, outcome := .ok 0 }
  else if batch.isEmpty then { store := store, outcome := .ok 0 }
  else
    match stageBatch failsAt batch with
    | .error e => { store := store, outcome := .error e }
    | .ok staged =>
      if mergeFails then
        { store := store, outcome := .error (.execFailure "merge step") }
      else
        { store := sp_UpsertAtendimentos now store staged
          outcome := .ok staged.length }

/-- agent.py `fluxo_atualizar_tudo`, persistence section (lines 531-536):
```
try:
    persisted = persist_to_sql_merge(df, logger=logger)
    meta["persistidos_sql"] = int(persisted)
except Exception:
    pass
```
The flow swallows every persistence exception and continues with
`meta["persistidos_sql"]` left at 0; the value observable by the caller of
the full-refresh flow is therefore always a normal result. -/
def fluxo_persist_step (pyodbcAvail enable : Bool)
    (failsAt : InsRec → Bool) (mergeFails : Bool) (now : Nat)
    (store : List StoreRow) (batch : List InsRec) :
    Except SqlError (List StoreRow × Nat) :=
  let r := persist_to_sql_merge pyodbcAvail enable failsAt mergeFails now
    store batch
  match r.outcome with
  | .ok n => .ok (r.store, n)
  | .error _ => .ok (r.store, 0)

/-- The three load modes of sql_inserter.py. -/
inductive LoadMode where
  | append : LoadMode
  | truncate_mode : LoadMode
  | merge : LoadMode
deriving DecidableEq, Repr

/-- sql_inserter.py mode dispatch (lines 241-246) inside the transaction:
`append` inserts the batch after the existing rows, `truncate` clears the
table first, `merge` stages and upserts.  `execFails` models a failure of
the mode's SQL execution step (the `TRUNCATE`, the `EXEC`, or the `MERGE`
statement) after a successful row load. -/
def runLoadMode (mode : LoadMode) (spFound : Bool)
    (failsAt : InsRec → Bool) (execFails : Bool) (now : Nat)
    (store : List StoreRow) (batch : List InsRec) :
    Except SqlError (List StoreRow) :=
  match stageBatch failsAt batch with
  | .error e => .error e
  | .ok staged =>
    if execFails then .error (.execFailure "mode execution")
    else
      .ok (match mode with
        | .append => store ++ staged.map (fun s => s.withLoad none)
        | .truncate_mode => staged.map (fun s => s.withLoad none)
        | .merge => persist_merge spFound now store staged)

/-- sql_inserter.py `main` (lines 192-256): `SystemExit` (an error exit of
the process) when `sql.enable` is false; a normal return without touching
the store when the prepared record list is empty; otherwise the selected
load mode runs as one transaction — commit and report the row count on
success, rollback and re-raise on any failure. -/
def sqlInserterMain (enable : Bool) (mode : LoadMode) (spFound : Bool)
    (failsAt : InsRec → Bool) (execFails : Bool) (now : Nat)
    (store : List StoreRow) (batch : List InsRec) :
    Except String TxResult :=
  if !enable then .error "sql.enable está falso no config.yaml"
  else if batch.isEmpty then .ok { store := store, outcome := .ok 0 }
  else
    match runLoadMode mode spFound failsAt execFails now store batch with
    | .ok s => .ok { store := s, outcome := .ok batch.length }
    | .error e => .ok { store := store, outcome := .error e }

/-! ### Concrete data for the spec scenarios -/

/-- A canonical record carrying a given provider, procedure and revenue,
with fixed values in the remaining columns (used by the concrete spec
scenarios). -/
def mkRevRec (op pr : String) (receita : Rat) : CleanRec :=
  { data := 0
    clienteId := "C1"
    operadora := op
    procedimento := pr
    categoria := "CAT"
    uf := "SP"
    qtde := some 1
    precoUnitario := some receita
    receita := receita }

/-- The ten-record stream with revenues 10, 20, ..., 100 from the spec's
percentile scenario. -/
def decileInput : List CleanRec :=
  [mkRevRec "O" "P" 10, mkRevRec "O" "P" 20, mkRevRec "O" "P" 30,
   mkRevRec "O" "P" 40, mkRevRec "O" "P" 50, mkRevRec "O" "P" 60,
   mkRevRec "O" "P" 70, mkRevRec "O" "P" 80, mkRevRec "O" "P" 90,
   mkRevRec "O" "P" 100]

/-- Two providers with equal total revenue, provider "B" encountered before
provider "A" in the input stream (tie-break scenario for the rankings). -/
def tieInput : List CleanRec :=
  [mkRevRec "B" "PB" 10, mkRevRec "A" "PA" 10]

/-- A staged record used as concrete failing input for the persistence
scenarios. -/
def failRec : InsRec :=
  { data := 0
    clienteId := "C1"
    operadora := "OP"
    procedimento := "PROC"
    categoria := "CAT"
    qtde := 1
    precoUnitario := 10
    receita := 10 }

/-- A raw row with every cell absent. -/
def rowMissing : RawRow :=
  { data := .missing
    clienteId := .missing
    operadora := .missing
    procedimento := .missing
    categoria := .missing
    uf := .missing
    qtde := .missing
    precoUnitario := .missing
    receita := .missing }

/-- A raw row with every cell holding a string (interpreted through the
parser parameters chosen at each use site). -/
def strRow : RawRow :=
  { data := .str "2024-01-05"
    clienteId := .str "C1"
    operadora := .str "OP"
    procedimento := .str "PROC"
    categoria := .str "CAT"
    uf := .str "SP"
    qtde := .str "q"
    precoUnitario := .str "q"
    receita := .str "q" }

/-- The descending-revenue comparison of the rankings sort is total. -/
instance : IsTotal (String × Rat) (fun a b => b.2 ≤ a.2) :=
  ⟨fun a b => le_total b.2 a.2⟩

/-- The descending-revenue comparison of the rankings sort is transitive. -/
instance : IsTrans (String × Rat) (fun a b => b.2 ≤ a.2) :=
  ⟨fun _ _ _ h1 h2 => le_trans h2 h1⟩

/-! ### Theorems -/

/-- A date cell fails coercion exactly when it is absent or its string fails
the parser. -/
theorem parseWith_isNone (pdate : String → Option Nat) (v : RawVal) :
    ((v.parseWith pdate).isNone) =
      (decide (v = RawVal.missing) ||
        (match v with
         | .missing => false
         | .str s => (pdate s).isNone)) := by
  cases v <;> simp [RawVal.parseWith]

/-- Splitting the length of a filter along a disjoint Boolean disjunction. -/
theorem length_filter_or_disjoint (p q pq : α → Bool) (l : List α)
    (h : ∀ a, pq a = (p a || q a))
    (hd : ∀ a, p a = true → q a = false) :
    (l.filter pq).length = (l.filter p).length + (l.filter q).length := by
  induction l with
  | nil => rfl
  | cons a l ih =>
    by_cases hp : p a = true
    · have hq := hd a hp
      simp [List.filter_cons, h a, hp, hq, ih]
      omega
    · have hp' : p a = false := by revert hp; cases p a <;> simp
      by_cases hq : q a = true
      · simp [List.filter_cons, h a, hp', hq, ih]
        omega
      · have hq' : q a = false := by revert hq; cases q a <;> simp
        simp [List.filter_cons, h a, hp', hq', ih]

/-- C10: in `normalize_and_clean`, every input row whose date cell is absent
is dropped (no canonical record is emitted for it) and counted in
`invalid_dates`, which equals the number of rows with an absent date plus
the number of rows whose date string fails to parse. -/
theorem normalize_counts_missing_dates (pdate : String → Option Nat)
    (pnum : String → Option Rat) (rows : List RawRow) :
    (normalize_and_clean pdate pnum rows).2.invalid_dates
      = (rows.filter (fun r => decide (r.data = RawVal.missing))).length
        + (rows.filter (fun r =>
            match r.data with
            | .missing => false
            | .str s => (pdate s).isNone)).length
    ∧ ∀ r ∈ rows, r.data = RawVal.missing → cleanRow pdate pnum r = none := by
  constructor
  · have hsplit := length_filter_or_disjoint
      (fun r : RawRow => decide (r.data = RawVal.missing))
      (fun r : RawRow =>
        match r.data with
        | .missing => false
        | .str s => (pdate s).isNone)
      (fun r : RawRow => !((r.data.parseWith pdate).isSome)) rows
      (fun r => by
        cases hdata : r.data with
        | missing => simp [hdata, RawVal.parseWith]
        | str s => cases hp : pdate s <;> simp [hdata, RawVal.parseWith, hp])
      (fun r hr => by
        cases hdata : r.data with
        | missing => simp [hdata]
        | str s => simp [hdata] at hr)
    simpa [normalize_and_clean] using hsplit
  · intro r _ hmiss
    simp [cleanRow, hmiss, RawVal.parseWith]

/-- Field characterization of a successful `cleanRow`. -/
theorem cleanRow_some_fields (pdate : String → Option Nat)
    (pnum : String → Option Rat) (r : RawRow) (c : CleanRec)
    (h : cleanRow pdate pnum r = some c) :
    c.qtde = clampNonNeg (r.qtde.parseWith pnum)
    ∧ c.precoUnitario = clampNonNeg (r.precoUnitario.parseWith pnum)
    ∧ c.receita = (match r.receita.parseWith pnum with
        | some v => v
        | none => c.qtde.getD 0 * c.precoUnitario.getD 0) := by
  unfold cleanRow at h
  cases hd : r.data.parseWith pdate with
  | none => rw [hd] at h; exact absurd h (by simp)
  | some d =>
    rw [hd] at h
    injection h with h
    subst h
    refine ⟨rfl, rfl, ?_⟩
    cases r.receita.parseWith pnum <;> rfl

/-- A value surviving the pandas negative clamp is non-negative. -/
theorem clampNonNeg_nonneg (v : Option Rat) (q : Rat)
    (h : clampNonNeg v = some q) : 0 ≤ q := by
  cases v with
  | none => simp [clampNonNeg] at h
  | some x =>
    rw [show clampNonNeg (some x) = some (if x < 0 then 0 else x) from rfl] at h
    injection h with h
    subst h
    split_ifs with hx
    · exact le_refl 0
    · exact not_lt.mp hx

/-- The pandas clamp sends a present negative value to `0`. -/
theorem clampNonNeg_of_neg (v : Option Rat) (x : Rat)
    (h : v = some x) (hx : x < 0) : clampNonNeg v = some 0 := by
  subst h
  simp [clampNonNeg, hx]

/-- Field characterization of a successful `buildRecord`. -/
theorem buildRecord_some_fields (pdate3 : String → Option Nat)
    (pf : String → Option Rat) (r : RawRow) (c : InsRec)
    (h : buildRecord pdate3 pf r = some c) :
    c.qtde = max 0 (to_int pf r.qtde)
    ∧ c.precoUnitario = max 0 (to_float pf r.precoUnitario)
    ∧ c.receita =
        (if r.receita = .missing ∨ r.receita = .str "" ∨ r.receita = .str "NA"
         then (c.qtde : Rat) * c.precoUnitario
         else to_float pf r.receita) := by
  unfold buildRecord at h
  cases hd : to_date pdate3 r.data with
  | none => rw [hd] at h; exact absurd h (by simp)
  | some d =>
    rw [hd] at h
    injection h with h
    subst h
    exact ⟨rfl, rfl, rfl⟩

/-- C5: the cleaning stage clamps negative quantities to 0 and negative
unit prices to 0.0, counts each clamp separately over the rows that
survived the date filter, and every emitted record — from
`normalize_and_clean` in agent.py as well as from the sql_inserter.py row
builder — carries only non-negative quantity and unit-price values. -/
theorem cleaning_clamps_negatives (pdate : String → Option Nat)
    (pnum : String → Option Rat) (pdate3 : String → Option Nat)
    (pf : String → Option Rat) (rows : List RawRow) :
    (∀ c ∈ (normalize_and_clean pdate pnum rows).1,
        (∀ q, c.qtde = some q → 0 ≤ q)
        ∧ (∀ p, c.precoUnitario = some p → 0 ≤ p))
    ∧ (∀ r : RawRow, ∀ c, cleanRow pdate pnum r = some c →
        (∀ x, r.qtde.parseWith pnum = some x → x < 0 → c.qtde = some 0)
        ∧ (∀ x, r.precoUnitario.parseWith pnum = some x → x < 0 →
            c.precoUnitario = some 0))
    ∧ (normalize_and_clean pdate pnum rows).2.neg_qtde
        = ((rows.filter (fun r => (r.data.parseWith pdate).isSome)).filter
            (fun r => isNegCell pnum r.qtde)).length
    ∧ (normalize_and_clean pdate pnum rows).2.neg_preco
        = ((rows.filter (fun r => (r.data.parseWith pdate).isSome)).filter
            (fun r => isNegCell pnum r.precoUnitario)).length
    ∧ (∀ r : RawRow, ∀ c, buildRecord pdate3 pf r = some c →
        0 ≤ c.qtde ∧ 0 ≤ c.precoUnitario) := by
  refine ⟨?_, ?_, ?_, ?_, ?_⟩
  · intro c hc
    obtain ⟨r, _hr, hrc⟩ := List.mem_filterMap.mp hc
    obtain ⟨hq, hp, _⟩ := cleanRow_some_fields pdate pnum r c hrc
    exact ⟨fun q hsq => clampNonNeg_nonneg _ q (hq ▸ hsq),
           fun p hsp => clampNonNeg_nonneg _ p (hp ▸ hsp)⟩
  · intro r c hrc
    obtain ⟨hq, hp, _⟩ := cleanRow_some_fields pdate pnum r c hrc
    exact ⟨fun x hx hneg => hq.trans (clampNonNeg_of_neg _ x hx hneg),
           fun x hx hneg => hp.trans (clampNonNeg_of_neg _ x hx hneg)⟩
  · simp [normalize_and_clean, List.filter_filter, Bool.and_comm]
  · simp [normalize_and_clean, List.filter_filter, Bool.and_comm]
  · intro r c hrc
    obtain ⟨hq, hp, _⟩ := buildRecord_some_fields pdate3 pf r c hrc
    exact ⟨hq ▸ le_max_left 0 _, hp ▸ le_max_left 0 _⟩

/-- C6: in both scripts a record whose source revenue cell is absent gets
revenue derived as quantity times unit price (absent quantity counting as 0
and absent unit price as 0.0, both after clamping), while a row whose
source revenue parses keeps the parsed value unchanged. -/
theorem revenue_derivation (pdate : String → Option Nat)
    (pnum : String → Option Rat) (pdate3 : String → Option Nat)
    (pf : String → Option Rat) :
    (∀ r : RawRow, ∀ c, cleanRow pdate pnum r = some c →
      (r.receita.parseWith pnum = none →
        c.receita = c.qtde.getD 0 * c.precoUnitario.getD 0)
      ∧ (∀ v, r.receita.parseWith pnum = some v → c.receita = v))
    ∧ (∀ r : RawRow, ∀ c, buildRecord pdate3 pf r = some c →
      ((r.receita = .missing ∨ r.receita = .str "" ∨ r.receita = .str "NA") →
        c.receita = (c.qtde : Rat) * c.precoUnitario)
      ∧ (∀ s v, r.receita = .str s → s ≠ "" → s ≠ "NA" → s ≠ "NaN" →
          pf (s.replace "," ".") = some v → c.receita = v)) := by
  constructor
  · intro r c hrc
    obtain ⟨_, _, hrec⟩ := cleanRow_some_fields pdate pnum r c hrc
    constructor
    · intro hnone
      rw [hrec, hnone]
    · intro v hv
      rw [hrec, hv]
  · intro r c hrc
    obtain ⟨_, _, hrec⟩ := buildRecord_some_fields pdate3 pf r c hrc
    constructor
    · intro habs
      rw [hrec, if_pos habs]
    · intro s v hs hne hna hnan hv
      have habs : ¬(r.receita = RawVal.missing ∨ r.receita = RawVal.str ""
          ∨ r.receita = RawVal.str "NA") := by
        rw [hs]
        simp [hne, hna]
      rw [hrec, if_neg habs, hs]
      simp [to_float, hne, hna, hnan, hv]

/-- The deduplicated stream is a sublist of the input (survivors keep their
original relative order). -/
theorem drop_duplicates_sublist (l : List CleanRec) :
    List.Sublist (drop_duplicates_keep_last l) l := by
  induction l with
  | nil => exact List.Sublist.refl []
  | cons r rs ih =>
    unfold drop_duplicates_keep_last
    split
    · exact ih.cons r
    · exact ih.cons₂ r

/-- Within each natural-key group, `drop_duplicates_keep_last` keeps exactly
the last occurrence of the group (stated for every key: the filtered
survivor list is the last element of the filtered input, or empty when the
key does not occur). -/
theorem drop_duplicates_filter_key (l : List CleanRec)
    (k : Nat × String × String) :
    (drop_duplicates_keep_last l).filter (fun r => decide (r.key = k))
      = ((l.filter (fun r => decide (r.key = k))).getLast?).toList := by
  induction l with
  | nil => rfl
  | cons r rs ih =>
    unfold drop_duplicates_keep_last
    by_cases hrk : r.key = k
    · by_cases hany : rs.any (fun x => decide (x.key = r.key)) = true
      · rw [if_pos hany]
        obtain ⟨x, hxmem, hxk⟩ := List.any_eq_true.mp hany
        have hne : rs.filter (fun r => decide (r.key = k)) ≠ [] := by
          apply List.ne_nil_of_mem (a := x)
          rw [List.mem_filter]
          exact ⟨hxmem, by simpa [hrk] using hxk⟩
        rw [ih, List.filter_cons_of_pos (by simpa using hrk)]
        obtain ⟨y, ys, hys⟩ := List.exists_cons_of_ne_nil hne
        rw [hys, List.getLast?_cons_cons]
      · rw [if_neg hany]
        have hnone : rs.filter (fun r => decide (r.key = k)) = [] := by
          rw [List.filter_eq_nil_iff]
          intro x hx
          simp only [decide_eq_true_eq]
          intro hxk
          exact hany (List.any_eq_true.mpr ⟨x, hx, by simp [hxk, hrk]⟩)
        have hddl : (drop_duplicates_keep_last rs).filter
            (fun r => decide (r.key = k)) = [] := by
          rw [ih, hnone]
          rfl
        rw [List.filter_cons_of_pos (by simpa using hrk),
          List.filter_cons_of_pos (by simpa using hrk), hddl, hnone]
        rfl
    · have hfr : ∀ m : List CleanRec,
          (r :: m).filter (fun x => decide (x.key = k))
            = m.filter (fun x => decide (x.key = k)) := by
        intro m
        exact List.filter_cons_of_neg (by simpa using hrk)
      split
      · rw [ih, hfr]
      · rw [hfr, ih, hfr]

/-- C4: for every natural-key group of size greater than one, exactly one
record survives `remove_duplicates` — the last of the group in input
order — the survivors keep their original relative order (the output is a
sublist of the input), and the reported removal count is the input length
minus the output length. -/
theorem remove_duplicates_last_write_wins (l : List CleanRec)
    (k : Nat × String × String)
    (hk : 1 < (l.filter (fun r => decide (r.key = k))).length) :
    ((remove_duplicates l).1.filter (fun r => decide (r.key = k))).length = 1
    ∧ (remove_duplicates l).1.filter (fun r => decide (r.key = k))
        = ((l.filter (fun r => decide (r.key = k))).getLast?).toList
    ∧ List.Sublist (remove_duplicates l).1 l
    ∧ (remove_duplicates l).2 = l.length - (remove_duplicates l).1.length := by
  have hne : l.filter (fun r => decide (r.key = k)) ≠ [] := by
    intro hnil
    rw [hnil] at hk
    simp at hk
  refine ⟨?_, drop_duplicates_filter_key l k, drop_duplicates_sublist l, rfl⟩
  rw [show (remove_duplicates l).1 = drop_duplicates_keep_last l from rfl,
    drop_duplicates_filter_key l k]
  obtain ⟨a, ha⟩ := List.getLast?_isSome.mpr hne |> Option.isSome_iff_exists.mp
  rw [ha]
  rfl

/-- C7: a record's outlier flag is set exactly when its revenue is at least
the 90th percentile of the analyzed set under linear-interpolation quantile
semantics; on empty input the percentile is 0 and no record is flagged; for
the ten revenues 10, 20, ..., 100 the percentile is 91 and exactly the
single record with revenue 100 is flagged. -/
theorem percentile_flag_spec (recs : List CleanRec) :
    (∀ pr ∈ (compute_percentile_flag recs).1,
        pr.2 = true ↔ (compute_percentile_flag recs).2 ≤ pr.1.receita)
    ∧ compute_percentile_flag [] = ([], 0)
    ∧ (compute_percentile_flag decileInput).2 = 91
    ∧ ((compute_percentile_flag decileInput).1.filter
        (fun pr => pr.2)).map (fun pr => pr.1.receita) = [100] := by
  have hp90 : (compute_percentile_flag decileInput).2 = 91 := by
    norm_num [compute_percentile_flag, decileInput, quantileLinear, mkRevRec,
      List.insertionSort, List.orderedInsert, show Int.toNat 8 = 8 from rfl]
  refine ⟨?_, rfl, hp90, ?_⟩
  · intro pr hpr
    obtain ⟨r, _hr, hrdef⟩ := List.mem_map.mp hpr
    rw [← hrdef]
    simp [compute_percentile_flag]
  · norm_num [compute_percentile_flag, decileInput, quantileLinear, mkRevRec,
      List.insertionSort, List.orderedInsert, show Int.toNat 8 = 8 from rfl]

/-- The merge update arm never changes the natural-key columns. -/
theorem mergeUpdateRow_key (now : Nat) (batch : List InsRec) (t : StoreRow) :
    (mergeUpdateRow now batch t).key = t.key := by
  unfold mergeUpdateRow
  cases batch.find? (fun s => decide (s.key = t.key)) with
  | none => rfl
  | some s => rfl

/-- In a batch with pairwise-distinct natural keys, the match lookup for a
member's key finds exactly that member. -/
theorem find?_key_of_nodup (batch : List InsRec) (s : InsRec)
    (hb : (batch.map InsRec.key).Nodup) (hs : s ∈ batch) :
    batch.find? (fun x => decide (x.key = s.key)) = some s := by
  induction batch with
  | nil => cases hs
  | cons a l ih =>
    rw [List.map_cons, List.nodup_cons] at hb
    rcases List.mem_cons.mp hs with rfl | hmem
    · rw [List.find?_cons_of_pos _ (by simp)]
    · have hne : ¬(a.key = s.key) := by
        intro he
        exact hb.1 (he ▸ List.mem_map_of_mem InsRec.key hmem)
      rw [List.find?_cons_of_neg _ (by simpa using hne)]
      exact ih hb.2 hmem

/-- Equation for `mergeUpdateRow` when no staging row matches. -/
theorem mergeUpdateRow_eq_none (now : Nat) (batch : List InsRec)
    (t : StoreRow)
    (hf : batch.find? (fun s => decide (s.key = t.key)) = none) :
    mergeUpdateRow now batch t = t := by
  unfold mergeUpdateRow
  rw [hf]

/-- Equation for `mergeUpdateRow` when a staging row matches. -/
theorem mergeUpdateRow_eq_some (now : Nat) (batch : List InsRec)
    (t : StoreRow) (s : InsRec)
    (hf : batch.find? (fun x => decide (x.key = t.key)) = some s) :
    mergeUpdateRow now batch t =
      { t with operadora := s.operadora
               categoria := s.categoria
               qtde := s.qtde
               precoUnitario := s.precoUnitario
               receita := s.receita
               loadDate := some now } := by
  unfold mergeUpdateRow
  rw [hf]

/-- After one merge run, every batch key is present in the store. -/
theorem mergeFallbackSql_key_present (now : Nat) (store : List StoreRow)
    (batch : List InsRec) (s : InsRec) (hs : s ∈ batch) :
    ∃ t ∈ mergeFallbackSql now store batch, t.key = s.key := by
  by_cases hc : ∃ t0 ∈ store, t0.key = s.key
  · obtain ⟨t0, ht0, hk⟩ := hc
    refine ⟨mergeUpdateRow now batch t0, ?_, ?_⟩
    · exact List.mem_append_left _ (List.mem_map_of_mem _ ht0)
    · rw [mergeUpdateRow_key, hk]
  · push_neg at hc
    refine ⟨s.withLoad (some now), ?_, rfl⟩
    apply List.mem_append_right
    apply List.mem_map_of_mem
    rw [List.mem_filter]
    refine ⟨hs, ?_⟩
    rw [List.all_eq_true]
    intro t ht
    simpa using hc t ht

/-- C1: merge-mode persistence is idempotent on batches with
pairwise-distinct natural keys (what the upstream deduplication produces):
running `persist_merge` a second time with the identical batch leaves every
column of the durable row set except the last-loaded timestamp exactly as
after the first run, whichever implementation the capability probe selects
on either run. -/
theorem merge_persistence_idempotent (spF1 spF2 : Bool)
    (store : List StoreRow) (batch : List InsRec) (now1 now2 : Nat)
    (hb : (batch.map InsRec.key).Nodup) :
    (persist_merge spF2 now2 (persist_merge spF1 now1 store batch)
        batch).map StoreRow.strip
      = (persist_merge spF1 now1 store batch).map StoreRow.strip := by
  have hcore : ∀ st : List StoreRow,
      (mergeFallbackSql now2 (mergeFallbackSql now1 st batch) batch).map
          StoreRow.strip
        = (mergeFallbackSql now1 st batch).map StoreRow.strip := by
    intro st
    have hfil : batch.filter
        (fun s => (mergeFallbackSql now1 st batch).all
          (fun t => !(decide (t.key = s.key)))) = [] := by
      rw [List.filter_eq_nil_iff]
      intro s hs hall
      obtain ⟨t, ht, hk⟩ := mergeFallbackSql_key_present now1 st batch s hs
      have := List.all_eq_true.mp hall t ht
      simp [hk] at this
    have hupd : ∀ t ∈ mergeFallbackSql now1 st batch,
        StoreRow.strip (mergeUpdateRow now2 batch t) = StoreRow.strip t := by
      intro t ht
      rcases List.mem_append.mp ht with hmem | hmem
      · obtain ⟨t0, _ht0, rfl⟩ := List.mem_map.mp hmem
        cases hf : batch.find? (fun s => decide (s.key = t0.key)) with
        | none =>
          have h1 := mergeUpdateRow_eq_none now1 batch t0 hf
          rw [h1, mergeUpdateRow_eq_none now2 batch t0 hf]
        | some s =>
          have hf2 : batch.find?
              (fun x => decide (x.key = (mergeUpdateRow now1 batch t0).key))
                = some s := by
            rw [mergeUpdateRow_key]
            exact hf
          rw [mergeUpdateRow_eq_some now2 batch _ s hf2,
            mergeUpdateRow_eq_some now1 batch t0 s hf]
          rfl
      · obtain ⟨s, hsf, rfl⟩ := List.mem_map.mp hmem
        have hsb : s ∈ batch := (List.mem_filter.mp hsf).1
        have hf2 : batch.find?
            (fun x => decide (x.key = (s.withLoad (some now1)).key))
              = some s := find?_key_of_nodup batch s hb hsb
        rw [mergeUpdateRow_eq_some now2 batch _ s hf2]
        rfl
    rw [show mergeFallbackSql now2 (mergeFallbackSql now1 st batch) batch
        = (mergeFallbackSql now1 st batch).map (mergeUpdateRow now2 batch)
          ++ (batch.filter
            (fun s => (mergeFallbackSql now1 st batch).all
              (fun t => !(decide (t.key = s.key))))).map
            (fun s => s.withLoad (some now2)) from rfl]
    rw [hfil]
    simp only [List.map_nil, List.append_nil, List.map_map]
    exact List.map_congr_left (fun t ht => hupd t ht)
  cases spF1 <;> cases spF2 <;>
    simpa [persist_merge, sp_UpsertAtendimentos] using hcore store

/-- C3 (amended): only sql_inserter.py's `persist_merge` performs the
capability probe `sp_exists(cur, "app", "sp_UpsertAtendimentos")` — when
the routine is found the merge delegates to it, otherwise the inline
`MERGE_FALLBACK_SQL` executes, with identical resulting durable state under
either probe outcome (the routine body is absent from the repository and is
modelled from the spec as the equivalent natural-key upsert).  agent.py's
merge-mode persistence performs no probe and has no inline fallback: it
unconditionally EXECs the routine, applying the routine's upsert exactly
when the routine exists and failing — not falling back — when it does
not. -/
theorem merge_probe_inserter_fallback (spFound : Bool) (now : Nat)
    (store : List StoreRow) (batch : List InsRec) :
    persist_merge spFound now store batch = mergeFallbackSql now store batch
    ∧ persist_merge true now store batch
        = sp_UpsertAtendimentos now store batch
    ∧ agentMergeStep true now store batch
        = .ok (sp_UpsertAtendimentos now store batch)
    ∧ agentMergeStep false now store batch
        = .error (.execFailure
            "Could not find stored procedure app.sp_UpsertAtendimentos") := by
  refine ⟨?_, rfl, rfl, rfl⟩
  cases spFound <;> rfl

/-- C3 counterexample: agent.py `persist_to_sql_merge` — a flow the claim
covers — never probes for the routine; line 461 EXECs it unconditionally.
At a concrete batch with the routine absent from the target store, the
agent's merge step raises an execution error and does not produce the
state of the inline match/update/insert the claim promises. -/
theorem agent_merge_never_probes :
    agentMergeStep false 0 [] [failRec]
      = .error (.execFailure
          "Could not find stored procedure app.sp_UpsertAtendimentos")
    ∧ agentMergeStep false 0 [] [failRec]
        ≠ .ok (mergeFallbackSql 0 [] [failRec]) := by
  exact ⟨rfl, by decide⟩

/-- C2 (amended): a row-level failure in the staging load, or a failure of
the merge/mode execution step, rolls the whole transaction back — the
durable store is left exactly as before — and the error is re-raised to the
caller of the persistence operation, with no retry or mode switching: this
holds for `persist_to_sql_merge` in agent.py and for the transaction of
sql_inserter.py `main` in every load mode.  (The full-refresh flow
`fluxo_atualizar_tudo`, however, catches and discards that re-raised error;
see the counterexample theorem.) -/
theorem persistence_failure_rolls_back (failsAt : InsRec → Bool)
    (execFails : Bool) (mode : LoadMode) (spFound : Bool) (now : Nat)
    (store : List StoreRow) (batch : List InsRec)
    (hfail : (∃ r ∈ batch, failsAt r = true) ∨ execFails = true)
    (hne : batch ≠ []) :
    ((persist_to_sql_merge true true failsAt execFails now store
        batch).store = store
      ∧ ∃ e, (persist_to_sql_merge true true failsAt execFails now store
          batch).outcome = .error e)
    ∧ ∃ t, sqlInserterMain true mode spFound failsAt execFails now store
          batch = .ok t
        ∧ t.store = store ∧ ∃ e, t.outcome = .error e := by
  have hstage : (∃ e, stageBatch failsAt batch = .error e) ∨
      (stageBatch failsAt batch = .ok batch ∧ execFails = true) := by
    cases hf : batch.find? failsAt with
    | some r =>
      exact .inl ⟨.rowFailure r, by rw [stageBatch, hf]⟩
    | none =>
      rcases hfail with ⟨r, hr, hfr⟩ | hex
      · exact absurd hfr (by simpa using List.find?_eq_none.mp hf r hr)
      · exact .inr ⟨by rw [stageBatch, hf], hex⟩
  obtain ⟨a, l, rfl⟩ := List.exists_cons_of_ne_nil hne
  have hemp : (a :: l).isEmpty = false := rfl
  rcases hstage with ⟨e, he⟩ | ⟨hok, hex⟩
  · refine ⟨⟨?_, e, ?_⟩, ?_⟩
    · simp [persist_to_sql_merge, hemp, he]
    · simp [persist_to_sql_merge, hemp, he]
    · refine ⟨{ store := store, outcome := .error e }, ?_, rfl, e, rfl⟩
      simp [sqlInserterMain, hemp, runLoadMode, he]
  · subst hex
    refine ⟨⟨?_, .execFailure "merge step", ?_⟩, ?_⟩
    · simp [persist_to_sql_merge, hemp, hok]
    · simp [persist_to_sql_merge, hemp, hok]
    · refine ⟨{ store := store, outcome := .error (.execFailure
        "mode execution") }, ?_, rfl, _, rfl⟩
      simp [sqlInserterMain, hemp, runLoadMode, hok]

/-- C2 counterexample: at a concrete failing batch the persistence
operation re-raises the row failure after rollback, but the full-refresh
flow `fluxo_atualizar_tudo` swallows it (`except Exception: pass`) and
completes normally with 0 rows recorded as persisted — its caller never
observes the persistence failure. -/
theorem fluxo_swallows_persistence_failure :
    (persist_to_sql_merge true true (fun _ => true) false 0 []
        [failRec]).outcome = .error (.rowFailure failRec)
    ∧ fluxo_persist_step true true (fun _ => true) false 0 [] [failRec]
        = .ok ([], 0) := ⟨rfl, rfl⟩

/-- C9 (amended): in the agent flow, a persistence request with the
database driver unavailable or `sql.enable` false is an explicit no-op —
the durable store is untouched and 0 persisted rows are returned, not an
error. -/
theorem disabled_persistence_is_noop (pyodbcAvail enable : Bool)
    (failsAt : InsRec → Bool) (execFails : Bool) (now : Nat)
    (store : List StoreRow) (batch : List InsRec)
    (hdis : pyodbcAvail = false ∨ enable = false) :
    (persist_to_sql_merge pyodbcAvail enable failsAt execFails now store
        batch).store = store
    ∧ (persist_to_sql_merge pyodbcAvail enable failsAt execFails now store
        batch).outcome = .ok 0 := by
  rcases hdis with rfl | rfl
  · exact ⟨rfl, rfl⟩
  · cases pyodbcAvail <;> exact ⟨rfl, rfl⟩

/-- C9 counterexample: when `sql.enable` is false the standalone inserter
CLI does not no-op — `main` raises `SystemExit` with an error message, an
error exit of the program, before reading any input. -/
theorem inserter_disabled_exit_counterexample :
    sqlInserterMain false .merge true (fun _ => false) false 0 [] [failRec]
      = .error "sql.enable está falso no config.yaml" := rfl

/-- The concrete executable sort kernel satisfies the documented
`sort_values` contract (a permutation sorted by descending revenue). -/
theorem sort_values_desc_contract : IsSortValuesDesc sort_values_desc :=
  fun m => ⟨List.perm_insertionSort _ m, List.sorted_insertionSort _ m⟩

/-- C8 (amended): for every sort kernel obeying the contract pandas
documents for the default `sort_values("Receita", ascending=False)` — any
permutation of the input ordered by descending revenue, tie order
unspecified — each ranking is the first 20 entries of such a sorted
permutation of the grouped totals: top 20 providers/procedures by summed
revenue, descending.  The relative order of equal totals is not specified
by the program (the default quicksort is not stable) and in particular is
not the original-encounter order (see the counterexample); the executable
model `rankingTop` is one conforming instance. -/
theorem rankings_top20_by_revenue (key : CleanRec → String)
    (l : List CleanRec)
    (sortImpl : List (String × Rat) → List (String × Rat))
    (himpl : IsSortValuesDesc sortImpl) :
    List.Perm (sortImpl (groupSumBy key l)) (groupSumBy key l)
    ∧ (sortImpl (groupSumBy key l)).Pairwise (fun a b => b.2 ≤ a.2)
    ∧ (rankingTopWith sortImpl key l).Pairwise (fun a b => b.2 ≤ a.2)
    ∧ (rankingTopWith sortImpl key l).length ≤ 20
    ∧ IsSortValuesDesc sort_values_desc
    ∧ rankingTop key l = rankingTopWith sort_values_desc key l := by
  obtain ⟨hperm, hsorted⟩ := himpl (groupSumBy key l)
  exact ⟨hperm, hsorted,
    List.Pairwise.sublist (List.take_sublist 20 _) hsorted,
    List.length_take_le 20 _, sort_values_desc_contract, rfl⟩

/-- C8 counterexample: with provider "B" encountered before provider "A"
and equal total revenue, the emitted ranking is [("A", 10), ("B", 10)],
not the original-encounter order [("B", 10), ("A", 10)] the claim
requires: pandas `groupby` (default `sort=True`) hands the groups to the
revenue sort already reordered to ascending key order, and on this
two-element array the default sort keeps that order on the tie (numpy
introsort runs a plain insertion sort below 17 elements, which the
executable model coincides with here). -/
theorem ranking_tie_not_encounter_order :
    (make_rankings tieInput).1 = [("A", 10), ("B", 10)]
    ∧ (make_rankings tieInput).1 ≠ [("B", 10), ("A", 10)] := by
  have h1 : (make_rankings tieInput).1 = [("A", 10), ("B", 10)] := by
    norm_num [make_rankings, rankingTop, sort_values_desc, groupSumBy,
      tieInput, mkRevRec, List.insertionSort, List.orderedInsert,
      List.dedup, List.pwFilter, List.filter_cons, List.filter_nil,
      show ("A" : String) ≠ "B" by decide, show ("B" : String) ≠ "A" by decide]
  refine ⟨h1, ?_⟩
  rw [h1]
  decide

/-! ### Witnesses -/

/-- Witness for `normalize_counts_missing_dates`: a row with an absent date
is dropped by the cleaner. -/
theorem normalize_counts_missing_dates_witness :
    cleanRow (fun _ => none) (fun _ => none) rowMissing = none :=
  (normalize_counts_missing_dates (fun _ => none) (fun _ => none)
    [rowMissing]).2 rowMissing (List.mem_singleton.mpr rfl) rfl

/-- Witness for `cleaning_clamps_negatives`: a row whose quantity and unit
price parse to -5 comes out with both clamped to 0. -/
theorem cleaning_clamps_negatives_witness :
    ∃ c, cleanRow (fun _ => some 0) (fun _ => some (-5)) strRow = some c
      ∧ c.qtde = some 0 ∧ c.precoUnitario = some 0 := by
  obtain ⟨c, hc⟩ : ∃ c,
      cleanRow (fun _ => some 0) (fun _ => some (-5)) strRow = some c :=
    ⟨_, rfl⟩
  have h := cleaning_clamps_negatives (fun _ => some 0) (fun _ => some (-5))
    (fun _ => some 0) (fun _ => some 0) []
  exact ⟨c, hc, (h.2.1 strRow c hc).1 (-5) rfl (by norm_num),
    (h.2.1 strRow c hc).2 (-5) rfl (by norm_num)⟩

/-- Witness for `revenue_derivation`: with no numeric cell parsing, the
emitted revenue is the product of the defaulted quantity and unit price. -/
theorem revenue_derivation_witness :
    ∃ c, cleanRow (fun _ => some 0) (fun _ => none) strRow = some c
      ∧ c.receita = c.qtde.getD 0 * c.precoUnitario.getD 0 := by
  obtain ⟨c, hc⟩ : ∃ c,
      cleanRow (fun _ => some 0) (fun _ => none) strRow = some c :=
    ⟨_, rfl⟩
  exact ⟨c, hc, ((revenue_derivation (fun _ => some 0) (fun _ => none)
    (fun _ => some 0) (fun _ => none)).1 strRow c hc).1 rfl⟩

/-- Witness for `remove_duplicates_last_write_wins`: two records sharing
the natural key (0, "C1", "P") leave exactly one survivor. -/
theorem remove_duplicates_last_write_wins_witness :
    ((remove_duplicates [mkRevRec "O1" "P" 10, mkRevRec "O2" "P" 20]).1.filter
      (fun r => decide (r.key = (0, "C1", "P")))).length = 1 :=
  (remove_duplicates_last_write_wins
    [mkRevRec "O1" "P" 10, mkRevRec "O2" "P" 20] (0, "C1", "P")
    (by decide)).1

/-- Witness for `percentile_flag_spec`: in a singleton stream the single
record's flag agrees with the percentile comparison. -/
theorem percentile_flag_spec_witness :
    (mkRevRec "O" "P" 0, true).2 = true ↔
      (compute_percentile_flag [mkRevRec "O" "P" 0]).2
        ≤ (mkRevRec "O" "P" 0, true).1.receita :=
  (percentile_flag_spec [mkRevRec "O" "P" 0]).1 (mkRevRec "O" "P" 0, true)
    (by norm_num [compute_percentile_flag, quantileLinear, mkRevRec,
      List.insertionSort, List.orderedInsert,
      show Int.toNat 0 = 0 from rfl])

/-- Witness for `merge_persistence_idempotent`: a singleton batch merged
twice leaves the store's non-timestamp columns unchanged. -/
theorem merge_persistence_idempotent_witness :
    (persist_merge false 1 (persist_merge false 0 [] [failRec])
        [failRec]).map StoreRow.strip
      = (persist_merge false 0 [] [failRec]).map StoreRow.strip :=
  merge_persistence_idempotent false false [] [failRec] 0 1 (by decide)

/-- Witness for `persistence_failure_rolls_back`: a batch whose single row
fails leaves the (empty) store unchanged and surfaces an error in both
persistence entry points. -/
theorem persistence_failure_rolls_back_witness :
    ((persist_to_sql_merge true true (fun _ => true) false 0 []
        [failRec]).store = []
      ∧ ∃ e, (persist_to_sql_merge true true (fun _ => true) false 0 []
          [failRec]).outcome = .error e)
    ∧ ∃ t, sqlInserterMain true .merge true (fun _ => true) false 0 []
          [failRec] = .ok t
        ∧ t.store = [] ∧ ∃ e, t.outcome = .error e :=
  persistence_failure_rolls_back (fun _ => true) false .merge true 0 []
    [failRec] (.inl ⟨failRec, List.mem_singleton.mpr rfl, rfl⟩)
    (by simp)

/-- Witness for `rankings_top20_by_revenue`: the executable sort kernel is
a conforming instance, exercised on the concrete tie scenario. -/
theorem rankings_top20_by_revenue_witness :
    List.Perm (sort_values_desc (groupSumBy (fun r => r.operadora) tieInput))
        (groupSumBy (fun r => r.operadora) tieInput)
    ∧ (sort_values_desc (groupSumBy (fun r => r.operadora)
        tieInput)).Pairwise (fun a b => b.2 ≤ a.2)
    ∧ (rankingTopWith sort_values_desc (fun r => r.operadora)
        tieInput).Pairwise (fun a b => b.2 ≤ a.2)
    ∧ (rankingTopWith sort_values_desc (fun r => r.operadora)
        tieInput).length ≤ 20
    ∧ IsSortValuesDesc sort_values_desc
    ∧ rankingTop (fun r => r.operadora) tieInput
        = rankingTopWith sort_values_desc (fun r => r.operadora) tieInput :=
  rankings_top20_by_revenue (fun r => r.operadora) tieInput sort_values_desc
    sort_values_desc_contract

/-- Witness for `disabled_persistence_is_noop`: with the driver unavailable
the agent's persistence call returns 0 and touches nothing. -/
theorem disabled_persistence_is_noop_witness :
    (persist_to_sql_merge false true (fun _ => false) false 0 []
        [failRec]).store = []
    ∧ (persist_to_sql_merge false true (fun _ => false) false 0 []
        [failRec]).outcome = .ok 0 :=
  disabled_persistence_is_noop false true (fun _ => false) false 0 []
    [failRec] (.inl rfl)

end PrismaSaude
